import Mathlib

/-!
Shallow embedding of the core of the `xsc` repository (`src/core/brain.py`):
the `GraphManager` graph-store adapter and the `DualBrain` turn orchestrator.

External effects are made explicit:
* the Neo4j store is modelled as a `Store` value (nodes keyed by their `id`
  property, `RELATED` edges keyed by `(sourceId, targetId, name)`), and each
  Cypher statement becomes a pure state transition plus a `StoreOp` trace entry;
* the DeepSeek model calls are oracle inputs (`Except` for fallible calls,
  a list of fragment strings for the streaming call);
* the SSE wire framing `data: <json>\n\n` is abstracted into a typed `Event`.

`GraphManager._generate_id` truncates an MD5 hex digest, so MD5 (RFC 1321) is
implemented here over the UTF-8 bytes of the name.
-/

/-! ## MD5 over byte lists (RFC 1321) -/

def w32 (x : Nat) : Nat := x % 4294967296

def not32 (x : Nat) : Nat := x ^^^ 4294967295

def rotl32 (x n : Nat) : Nat := w32 ((x <<< n) ||| (x >>> (32 - n)))

def md5K : List Nat :=
  [0xd76aa478, 0xe8c7b756, 0x242070db, 0xc1bdceee,
   0xf57c0faf, 0x4787c62a, 0xa8304613, 0xfd469501,
   0x698098d8, 0x8b44f7af, 0xffff5bb1, 0x895cd7be,
   0x6b901122, 0xfd987193, 0xa679438e, 0x49b40821,
   0xf61e2562, 0xc040b340, 0x265e5a51, 0xe9b6c7aa,
   0xd62f105d, 0x02441453, 0xd8a1e681, 0xe7d3fbc8,
   0x21e1cde6, 0xc33707d6, 0xf4d50d87, 0x455a14ed,
   0xa9e3e905, 0xfcefa3f8, 0x676f02d9, 0x8d2a4c8a,
   0xfffa3942, 0x8771f681, 0x6d9d6122, 0xfde5380c,
   0xa4beea44, 0x4bdecfa9, 0xf6bb4b60, 0xbebfbc70,
   0x289b7ec6, 0xeaa127fa, 0xd4ef3085, 0x04881d05,
   0xd9d4d039, 0xe6db99e5, 0x1fa27cf8, 0xc4ac5665,
   0xf4292244, 0x432aff97, 0xab9423a7, 0xfc93a039,
   0x655b59c3, 0x8f0ccc92, 0xffeff47d, 0x85845dd1,
   0x6fa87e4f, 0xfe2ce6e0, 0xa3014314, 0x4e0811a1,
   0xf7537e82, 0xbd3af235, 0x2ad7d2bb, 0xeb86d391]

def md5S : List Nat :=
  [7, 12, 17, 22, 7, 12, 17, 22, 7, 12, 17, 22, 7, 12, 17, 22,
   5, 9, 14, 20, 5, 9, 14, 20, 5, 9, 14, 20, 5, 9, 14, 20,
   4, 11, 16, 23, 4, 11, 16, 23, 4, 11, 16, 23, 4, 11, 16, 23,
   6, 10, 15, 21, 6, 10, 15, 21, 6, 10, 15, 21, 6, 10, 15, 21]

def md5F (i b c d : Nat) : Nat :=
  if i < 16 then (b &&& c) ||| (not32 b &&& d)
  else if i < 32 then (d &&& b) ||| (not32 d &&& c)
  else if i < 48 then b ^^^ c ^^^ d
  else c ^^^ (b ||| not32 d)

def md5G (i : Nat) : Nat :=
  if i < 16 then i
  else if i < 32 then (5 * i + 1) % 16
  else if i < 48 then (3 * i + 5) % 16
  else (7 * i) % 16

def md5Step (M : List Nat) (st : Nat × Nat × Nat × Nat) (i : Nat) :
    Nat × Nat × Nat × Nat :=
  let a := st.1
  let b := st.2.1
  let c := st.2.2.1
  let d := st.2.2.2
  let f := w32 (md5F i b c d + a + md5K.getD i 0 + M.getD (md5G i) 0)
  (d, w32 (b + rotl32 f (md5S.getD i 0)), b, c)

def wordAt (block : List Nat) (j : Nat) : Nat :=
  block.getD (4 * j) 0 + 256 * block.getD (4 * j + 1) 0 +
    65536 * block.getD (4 * j + 2) 0 + 16777216 * block.getD (4 * j + 3) 0

def md5Block (h : Nat × Nat × Nat × Nat) (block : List Nat) :
    Nat × Nat × Nat × Nat :=
  let M := (List.range 16).map (wordAt block)
  let r := (List.range 64).foldl (md5Step M) h
  (w32 (h.1 + r.1), w32 (h.2.1 + r.2.1), w32 (h.2.2.1 + r.2.2.1),
    w32 (h.2.2.2 + r.2.2.2))

def toLEBytes : Nat → Nat → List Nat
  | 0, _ => []
  | k + 1, x => (x % 256) :: toLEBytes k (x / 256)

def md5Pad (msg : List Nat) : List Nat :=
  let z := (120 - ((msg.length + 1) % 64)) % 64
  msg ++ [0x80] ++ List.replicate z 0 ++ toLEBytes 8 (8 * msg.length)

def md5Words (msg : List Nat) : Nat × Nat × Nat × Nat :=
  let padded := md5Pad msg
  let blocks := (List.range (padded.length / 64)).map
    (fun i => (padded.drop (64 * i)).take 64)
  blocks.foldl md5Block (0x67452301, 0xefcdab89, 0x98badcfe, 0x10325476)

def hexDigit (n : Nat) : Char :=
  if n < 10 then Char.ofNat (48 + n) else Char.ofNat (87 + n)

def byteHexChars (b : Nat) : List Char := [hexDigit (b / 16), hexDigit (b % 16)]

def wordLEHexChars (x : Nat) : List Char :=
  byteHexChars (x % 256) ++ byteHexChars (x / 256 % 256) ++
    byteHexChars (x / 65536 % 256) ++ byteHexChars (x / 16777216 % 256)

def md5HexChars (msg : List Nat) : List Char :=
  let h := md5Words msg
  wordLEHexChars h.1 ++ wordLEHexChars h.2.1 ++ wordLEHexChars h.2.2.1 ++
    wordLEHexChars h.2.2.2

/-! UTF-8 encoding of a string as a byte list. -/

def utf8EncodeCharNat (c : Char) : List Nat :=
  let n := c.toNat
  if n < 0x80 then [n]
  else if n < 0x800 then [0xc0 + n / 64, 0x80 + n % 64]
  else if n < 0x10000 then
    [0xe0 + n / 4096, 0x80 + (n / 64) % 64, 0x80 + n % 64]
  else
    [0xf0 + n / 262144, 0x80 + (n / 4096) % 64, 0x80 + (n / 64) % 64,
      0x80 + n % 64]

def strBytes (s : String) : List Nat := s.data.flatMap utf8EncodeCharNat

/-- Mirrors `GraphManager._generate_id`: deterministic node id from the entity name. -/
def generate_id (name : String) : String :=
  "node_" ++ String.mk ((md5HexChars (strBytes name)).take 8)

/-! ## `GraphManager._assign_color` -/

/-- Substring containment, the semantics of Python `sub in s` and of Cypher
`s CONTAINS sub`. -/
def strContains (s sub : String) : Bool :=
  s.data.tails.any (fun t => sub.data.isPrefixOf t)

/-- The base palette (`colors` dict in `_assign_color`). -/
def colorPalette (k : String) : String :=
  if k = "orange" then "#ff9900"
  else if k = "pink" then "#ff66cc"
  else if k = "blue" then "#66ccff"
  else if k = "cyan" then "#00cc99"
  else if k = "purple" then "#9966ff"
  else if k = "dark_blue" then "#4d4dff"
  else if k = "grey" then "#808080"
  else "#cccccc"

/-- The `mapping_rules` table, in Python dict insertion order (the fuzzy-match loop
iterates it in this order). -/
def mappingRules : List (String × String) :=
  [("Person", "pink"), ("人", "pink"), ("人物", "pink"), ("用户", "pink"),
   ("演员", "pink"), ("导演", "pink"), ("开发者", "pink"), ("创始人", "pink"),
   ("CEO", "pink"), ("专家", "pink"), ("作者", "pink"),
   ("Movie", "blue"), ("电影", "blue"), ("影片", "blue"), ("作品", "blue"),
   ("书籍", "blue"), ("小说", "blue"), ("电视剧", "blue"),
   ("Concept", "orange"), ("概念", "orange"), ("术语", "orange"), ("定义", "orange"),
   ("Technology", "cyan"), ("技术", "cyan"), ("科技", "cyan"), ("工具", "cyan"),
   ("语言", "cyan"),
   ("Location", "purple"), ("地点", "purple"), ("城市", "purple"), ("国家", "purple"),
   ("地址", "purple"),
   ("Company", "dark_blue"), ("公司", "dark_blue"), ("企业", "dark_blue"),
   ("机构", "dark_blue"), ("品牌", "dark_blue"), ("集团", "dark_blue"),
   ("Date", "grey"), ("时间", "grey"), ("日期", "grey"), ("年份", "grey"),
   ("年代", "grey")]

/-- Mirrors `GraphManager._assign_color`: exact lookup, then fuzzy (substring)
matching in rule order, defaulting to grey. -/
def assign_color (group : String) : String :=
  if group.isEmpty then "#cccccc"
  else
    match mappingRules.find? (fun p => p.1 == group) with
    | some p => colorPalette p.2
    | none =>
      match mappingRules.find? (fun p => strContains group p.1) with
      | some p => colorPalette p.2
      | none => "#cccccc"

/-! ## The graph store

Neo4j is modelled as a list of `Entity` nodes (keyed by the `id` property:
`MERGE (n:Entity {id})` unifies on it) and a list of `RELATED` edges
(keyed by `(sourceId, targetId, name)`: `MERGE (s)-[r:RELATED {name}]->(t)`
unifies on the endpoint pair plus the `name` property). -/

structure GNode where
  id : String
  name : String
  group : String
  color : String
deriving DecidableEq, Repr

structure GEdge where
  sourceId : String
  targetId : String
  name : String
deriving DecidableEq, Repr

structure Store where
  nodes : List GNode
  edges : List GEdge
deriving DecidableEq, Repr

def emptyStore : Store := ⟨[], []⟩

/-- Statement `MERGE (n:Entity {id: $id}) SET n.name = $name, n.group = $group,
n.color = $color`: upsert by the `id` key, then overwrite the non-key
attributes. -/
def Store.mergeNode (s : Store) (i name group color : String) : Store :=
  if s.nodes.any (fun n => n.id == i) then
    { s with nodes := s.nodes.map (fun n =>
        if n.id == i then { n with name := name, group := group, color := color }
        else n) }
  else
    { s with nodes := s.nodes ++ [⟨i, name, group, color⟩] }

/-- Statement `MATCH (s:Entity {id: $sid}), (t:Entity {id: $tid})
MERGE (s)-[r:RELATED {name: $rel}]->(t)`: the MATCH binds nothing when either
endpoint is absent (then the statement writes nothing); otherwise the MERGE
creates the edge only if no edge with that key exists. -/
def Store.mergeEdge (s : Store) (sid tid rel : String) : Store :=
  if s.nodes.any (fun n => n.id == sid) && s.nodes.any (fun n => n.id == tid) then
    if s.edges.any (fun e => e.sourceId == sid && e.targetId == tid && e.name == rel) then
      s
    else
      { s with edges := s.edges ++ [⟨sid, tid, rel⟩] }
  else s

/-- Trace of graph-store access: opening a driver session and each
`session.run` statement. -/
inductive StoreOp where
  | openSession : StoreOp
  | runNodeMerge (i name group color : String) : StoreOp
  | runEdgeMerge (sid tid rel : String) : StoreOp
deriving DecidableEq, Repr

/-! ## `GraphManager.update_graph` -/

/-- One item of the extraction's `entities` list. `isDict` is whether the JSON
value is an object (`isinstance(item, dict)`); `name`/`etype` are its optional
`name` and `type` fields. -/
structure EntityItem where
  isDict : Bool
  name : Option String
  etype : Option String
deriving DecidableEq, Repr

/-- One item of the extraction's `relations` list, with its optional `head`,
`tail` and `relation` fields. -/
structure RelationItem where
  isDict : Bool
  head : Option String
  tail : Option String
  relation : Option String
deriving DecidableEq, Repr

/-- The extraction dict after `.get("entities", [])` / `.get("relations", [])`. -/
structure Extraction where
  entities : List EntityItem
  relations : List RelationItem
deriving DecidableEq, Repr

/-- A node view appended to the frontend delta (`frontend_node`). -/
structure FrontendNode where
  id : String
  name : String
  group : String
  color : String
  val : Nat
deriving DecidableEq, Repr

/-- A link view appended to the frontend delta (`frontend_link`). -/
structure FrontendLink where
  source : String
  target : String
  relationship : String
  width : Nat
deriving DecidableEq, Repr

/-- The `frontend_update_data` value: the delta returned by one `update_graph` call. -/
structure Delta where
  nodes : List FrontendNode
  links : List FrontendLink
deriving DecidableEq, Repr

/-- One iteration of the entity loop of `update_graph`:
`if not isinstance(item, dict) or 'name' not in item: continue`, then build
the view, append it to the delta and run the node MERGE. -/
def entityStep (acc : Delta × Store × List StoreOp) (item : EntityItem) :
    Delta × Store × List StoreOp :=
  if !item.isDict then acc
  else
    match item.name with
    | none => acc
    | some nm =>
      let node_id := generate_id nm
      let group := item.etype.getD "Concept"
      let color := assign_color group
      let fnode : FrontendNode := ⟨node_id, nm, group, color, 15⟩
      ⟨⟨acc.1.nodes ++ [fnode], acc.1.links⟩,
        acc.2.1.mergeNode node_id nm group color,
        acc.2.2 ++ [StoreOp.runNodeMerge node_id nm group color]⟩

/-- One iteration of the relation loop of `update_graph`:
`if not isinstance(item, dict) or 'head' not in item or 'tail' not in item:
continue`, default the predicate to `'关联'`, append the link view and run the
edge MERGE. -/
def relationStep (acc : Delta × Store × List StoreOp) (item : RelationItem) :
    Delta × Store × List StoreOp :=
  if !item.isDict then acc
  else
    match item.head, item.tail with
    | some h, some t =>
      let source_id := generate_id h
      let target_id := generate_id t
      let rel_name := item.relation.getD "关联"
      let flink : FrontendLink := ⟨source_id, target_id, rel_name, 2⟩
      ⟨⟨acc.1.nodes, acc.1.links ++ [flink]⟩,
        acc.2.1.mergeEdge source_id target_id rel_name,
        acc.2.2 ++ [StoreOp.runEdgeMerge source_id target_id rel_name]⟩
    | _, _ => acc

/-- Mirrors `GraphManager.update_graph`: early-exit on a doubly-empty extraction,
otherwise open one session, run the entity loop then the relation loop.
Returns the frontend delta, the final store, and the store-access trace. -/
def update_graph (store : Store) (extraction_data : Extraction) :
    Delta × Store × List StoreOp :=
  let raw_nodes := extraction_data.entities
  let raw_relations := extraction_data.relations
  if raw_nodes.isEmpty && raw_relations.isEmpty then
    ⟨⟨[], []⟩, store, []⟩
  else
    let acc0 : Delta × Store × List StoreOp :=
      ⟨⟨[], []⟩, store, [StoreOp.openSession]⟩
    let acc1 := raw_nodes.foldl entityStep acc0
    raw_relations.foldl relationStep acc1

/-! ## `GraphManager.search_subgraph` -/

/-- One result record of the retrieval query
(`RETURN n.name, r.name, m.name`); the relation columns are null when the
`OPTIONAL MATCH` found no incident edge. -/
structure QRecord where
  n_name : String
  rel_name : Option String
  m_name : Option String
deriving DecidableEq, Repr

def Store.findNode (s : Store) (i : String) : Option GNode :=
  s.nodes.find? (fun n => n.id == i)

/-- Rows contributed by `OPTIONAL MATCH (n)-[r]-(m)` for one matched node:
one row per incident edge in either direction. -/
def incidentRows (store : Store) (n : GNode) : List QRecord :=
  (store.edges.filter (fun e => e.sourceId == n.id)).filterMap (fun e =>
      (store.findNode e.targetId).map (fun m => ⟨n.name, some e.name, some m.name⟩))
    ++ (store.edges.filter (fun e => e.targetId == n.id)).filterMap (fun e =>
      (store.findNode e.sourceId).map (fun m => ⟨n.name, some e.name, some m.name⟩))

/-- All rows for one node: the incident-edge rows, or a single null-padded row
when the node has no incident edge (OPTIONAL MATCH semantics). -/
def nodeRows (store : Store) (n : GNode) : List QRecord :=
  let inc := incidentRows store n
  if inc.isEmpty then [⟨n.name, none, none⟩] else inc

/-- The retrieval query:
`UNWIND $keywords AS kw MATCH (n:Entity) WHERE n.name CONTAINS kw
OPTIONAL MATCH (n)-[r]-(m) RETURN n.name, r.name, m.name LIMIT 30`. -/
def queryRows (store : Store) (keywords : List String) : List QRecord :=
  (keywords.flatMap (fun kw =>
    (store.nodes.filter (fun n => strContains n.name kw)).flatMap
      (nodeRows store))).take 30

/-- Rendering of one record as a fact line. Python truthiness: the relation
line is used only when both `r.name` and `m.name` are non-null and non-empty. -/
def renderFact (r : QRecord) : String :=
  let truthy : Option String → Bool := fun o =>
    match o with
    | none => false
    | some s => !s.isEmpty
  if truthy r.rel_name && truthy r.m_name then
    r.n_name ++ " 的关系是 [" ++ (r.rel_name.getD "") ++ "] 对象是 " ++
      (r.m_name.getD "")
  else
    "实体: " ++ r.n_name

/-- The `seen`-set loop: keep each fact line the first time it appears. -/
def dedup (xs : List String) : List String :=
  xs.foldl (fun acc x => if acc.contains x then acc else acc ++ [x]) []

/-- The deduplicated fact lines collected by `search_subgraph`
(`context_texts`). -/
def search_subgraph_lines (store : Store) (keywords : List String) :
    List String :=
  if keywords.isEmpty then []
  else dedup ((queryRows store keywords).map renderFact)

/-- Mirrors `GraphManager.search_subgraph`: empty string on an empty keyword list,
otherwise the deduplicated fact lines joined by newlines. -/
def search_subgraph (store : Store) (keywords : List String) : String :=
  if keywords.isEmpty then ""
  else String.intercalate "\n" (search_subgraph_lines store keywords)

/-! ## `DualBrain` events

The SSE framing `data: <json>\n\n` is abstracted into a typed event. A
`control` event carries its `status` string plus the optional `payload`,
`stop_reason` and `summary.newNodes` fields; a `chunk` event carries its text
fragment (the random `resp_...` fragment id is opaque nondeterministic junk
and is abstracted away); a `graph_update` event carries the merge delta and
the epoch-milliseconds timestamp. -/

inductive Event where
  | control (status : String) (payload : Option String)
      (stop_reason : Option String) (summary_newNodes : Option Nat)
  | chunk (content : String)
  | graphUpdate (data : Delta) (timestamp : Nat)
deriving DecidableEq, Repr

def Event.isChunk : Event → Bool
  | .chunk _ => true
  | _ => false

def Event.isGraphUpdate : Event → Bool
  | .graphUpdate _ _ => true
  | _ => false

def Event.isClosed : Event → Bool
  | .control s _ _ _ => s == "closed"
  | _ => false

def startEvent : Event := .control "start" none none none

def closedEvent : Event := .control "closed" none none none

/-! ## `DualBrain._extract_search_keywords` -/

/-- Parsing of the keyword completion:
`[k.strip() for k in content.replace("，", ",").split(",") if k.strip()]`. -/
def parse_keywords (content : String) : List String :=
  (((content.replace "，" ",").splitOn ",").map String.trim).filter
    (fun k => !k.isEmpty)

/-- Mirrors `DualBrain._extract_search_keywords`. The model call is an oracle:
`.error` is a raised exception (swallowed, returning `[]`), `.ok` the returned
message content. -/
def extract_search_keywords (callResult : Except String String) : List String :=
  match callResult with
  | .error _ => []
  | .ok content => parse_keywords content

/-! ## `DualBrain._fast_brain_generate` -/

/-- The system prompt built by `_fast_brain_generate` when the retrieved
context is non-empty (truthy). -/
def contextFraming (context : String) : String :=
  "你是一个基于知识图谱的智能助手。" ++
    "\n\n【知识图谱检索结果】:\n" ++ context ++
    "\n\n请注意：上文中的\x27关系是 [XXX]\x27表示实体间的具体联系。请依据这些具体关系回答用户。"

/-- The system prompt built by `_fast_brain_generate` when the retrieved
context is empty (falsy). -/
def noKnowledgeFraming : String :=
  "你是一个基于知识图谱的智能助手。" ++
    "\n\n当前知识库中没有相关信息，请利用你的通用知识回答。"

def fast_brain_system_prompt (context : String) : String :=
  if !context.isEmpty then contextFraming context else noKnowledgeFraming

/-- Mirrors `DualBrain._fast_brain_generate`: returns the system prompt the model was
invoked with, and the emitted `chunk` events. The streaming completion is an
oracle list of raw `delta.content` fragments; falsy (empty) fragments are not
yielded (`if chunk.choices[0].delta.content:`). -/
def fast_brain_generate (context : String) (fragments : List String) :
    String × List Event :=
  (fast_brain_system_prompt context,
    (fragments.filter (fun c => !c.isEmpty)).map Event.chunk)

/-! ## `DualBrain._slow_brain_learn` -/

/-- The parsed JSON object of the extraction completion, before the
`容错` defaulting of missing `entities`/`relations` keys. -/
structure RawExtraction where
  entities : Option (List EntityItem)
  relations : Option (List RelationItem)
deriving DecidableEq, Repr

/-- Mirrors `DualBrain._slow_brain_learn`. The extraction model call plus
`json.loads` is an oracle: `.error` is any raised exception (API failure or
JSON parse failure) with its detail string, `.ok` the parsed object. Returns
the emitted events and the store after the turn's learning. -/
def slow_brain_learn (store : Store)
    (learnResult : Except String RawExtraction) (timestamp : Nat) :
    List Event × Store :=
  let thinkingEv : Event := .control "thinking" (some "正在分析具体关系...") none none
  match learnResult with
  | .error e => ([thinkingEv, .control "error" (some e) none none], store)
  | .ok raw =>
    let extracted : Extraction := ⟨raw.entities.getD [], raw.relations.getD []⟩
    let r := update_graph store extracted
    let frontend_data := r.1
    if !frontend_data.nodes.isEmpty || !frontend_data.links.isEmpty then
      ([thinkingEv, .graphUpdate frontend_data timestamp,
        .control "finish" none (some "learned") (some frontend_data.nodes.length)],
        r.2.1)
    else
      ([thinkingEv, .control "finish" (some "未发现新知识") none none], r.2.1)

/-! ## `DualBrain.think` -/

/-- The external nondeterminism of one turn: the keyword model call, the
streamed answer fragments, the extraction model call, and the wall clock read
for the `graph_update` timestamp. -/
structure ThinkOracles where
  keywordCall : Except String String
  answerFragments : List String
  learnCall : Except String RawExtraction
  timestamp : Nat

/-- The observables of one `DualBrain.think` turn. -/
structure ThinkResult where
  events : List Event
  store : Store
  keywords : List String
  graphContext : String
  fastSystemPrompt : String

/-- Mirrors `DualBrain.think`: emits `start`, `thinking(retrieving)`, retrieval,
optionally `thinking(loaded)`, forwards the answer `chunk`s, forwards the
learn-stage events, then emits `closed`. -/
def think (store : Store) (o : ThinkOracles) : ThinkResult :=
  let keywords := extract_search_keywords o.keywordCall
  let graph_context := search_subgraph store keywords
  let loaded : List Event :=
    if !graph_context.isEmpty then
      [.control "thinking" (some "已加载关联知识") none none]
    else []
  let fast := fast_brain_generate graph_context o.answerFragments
  let learn := slow_brain_learn store o.learnCall o.timestamp
  { events :=
      [startEvent, .control "thinking" (some "正在检索具体关系...") none none] ++
        loaded ++ fast.2 ++ learn.1 ++ [closedEvent],
    store := learn.2,
    keywords := keywords,
    graphContext := graph_context,
    fastSystemPrompt := fast.1 }

/-! ## Derived definitions used by the theorems -/

/-- The node view that one entity item contributes (none when skipped). -/
def entityView (item : EntityItem) : Option FrontendNode :=
  if item.isDict then
    item.name.map (fun nm =>
      ⟨generate_id nm, nm, item.etype.getD "Concept",
        assign_color (item.etype.getD "Concept"), 15⟩)
  else none

/-- The link view that one relation item contributes (none when skipped). -/
def linkView (item : RelationItem) : Option FrontendLink :=
  if item.isDict then
    match item.head, item.tail with
    | some h, some t =>
      some ⟨generate_id h, generate_id t, item.relation.getD "关联", 2⟩
    | _, _ => none
  else none

/-- The store effect of one entity item. -/
def entityStoreStep (s : Store) (item : EntityItem) : Store :=
  match entityView item with
  | none => s
  | some v => s.mergeNode v.id v.name v.group v.color

/-- The store effect of one relation item. -/
def relationStoreStep (s : Store) (item : RelationItem) : Store :=
  match linkView item with
  | none => s
  | some v => s.mergeEdge v.source v.target v.relationship

/-- The node-list effect of the node MERGE statement. -/
def mergeNodeL (l : List GNode) (i n g c : String) : List GNode :=
  if l.any (fun x => x.id == i) then
    l.map (fun x =>
      if x.id == i then { x with name := n, group := g, color := c } else x)
  else l ++ [⟨i, n, g, c⟩]

/-- The edge-list effect of the edge MERGE statement. -/
def mergeEdgeL (ns : List GNode) (es : List GEdge) (a b r : String) :
    List GEdge :=
  if ns.any (fun x => x.id == a) && ns.any (fun x => x.id == b) then
    if es.any (fun e => e.sourceId == a && e.targetId == b && e.name == r) then es
    else es ++ [⟨a, b, r⟩]
  else es

/-- Key of an edge for uniqueness. -/
def edgeKey (e : GEdge) : String × String × String := (e.sourceId, e.targetId, e.name)

/-- The extraction of the merge-idempotence scenario:
`{entities:[{name:"A"}], relations:[{head:"A", tail:"B", relation:"knows"}]}`. -/
def c2ext : Extraction :=
  ⟨[⟨true, some "A", none⟩], [⟨true, some "A", some "B", some "knows"⟩]⟩

/-- Concrete oracles for one turn: failing keyword call, one answer fragment,
a successful extraction of one entity. -/
def c1oracles : ThinkOracles :=
  ⟨Except.error "boom", ["hi"],
    Except.ok ⟨some [⟨true, some "A", none⟩], none⟩, 123⟩

/-- Entity batch with one valid item, one non-dict item and one item lacking
the `name` key. -/
def c7ents : List EntityItem :=
  [⟨true, some "A", none⟩, ⟨false, none, none⟩, ⟨true, none, some "Person"⟩]

/-- A store already holding the two endpoint entities `A` and `B`. -/
def c9store : Store :=
  (update_graph emptyStore
    ⟨[⟨true, some "A", none⟩, ⟨true, some "B", none⟩], []⟩).2.1

/-! ## Supporting lemmas: deduplication -/

theorem dedup_go_nodup (xs : List String) : ∀ acc : List String, acc.Nodup →
    (xs.foldl (fun acc x => if acc.contains x then acc else acc ++ [x]) acc).Nodup := by
  induction xs with
  | nil => intro acc h; simpa using h
  | cons x xs ih =>
    intro acc h
    simp only [List.foldl_cons]
    by_cases hc : acc.contains x
    · simp only [hc, if_true]
      exact ih acc h
    · simp only [hc, if_false]
      apply ih
      have hx : x ∉ acc := by simpa using hc
      simp [List.nodup_append, h, hx]

theorem dedup_go_length (xs : List String) : ∀ acc : List String,
    (xs.foldl (fun acc x => if acc.contains x then acc else acc ++ [x]) acc).length ≤
      acc.length + xs.length := by
  induction xs with
  | nil => intro acc; simp
  | cons x xs ih =>
    intro acc
    simp only [List.foldl_cons]
    by_cases hc : acc.contains x
    · simp only [hc, if_true]
      calc _ ≤ acc.length + xs.length := ih acc
        _ ≤ acc.length + (x :: xs).length := by
            simp only [List.length_cons]; omega
    · simp only [hc, if_false]
      calc _ ≤ (acc ++ [x]).length + xs.length := ih (acc ++ [x])
        _ ≤ acc.length + (x :: xs).length := by
            simp only [List.length_append, List.length_cons, List.length_nil]
            omega

theorem dedup_nodup (xs : List String) : (dedup xs).Nodup :=
  dedup_go_nodup xs [] List.nodup_nil

theorem dedup_length_le (xs : List String) : (dedup xs).length ≤ xs.length := by
  simpa [dedup] using dedup_go_length xs []

/-! ## Supporting lemmas: the `update_graph` loops -/

theorem entityStep_eq (acc : Delta × Store × List StoreOp) (item : EntityItem) :
    entityStep acc item =
      match entityView item with
      | none => acc
      | some v =>
        ⟨⟨acc.1.nodes ++ [v], acc.1.links⟩, entityStoreStep acc.2.1 item,
          acc.2.2 ++ [StoreOp.runNodeMerge v.id v.name v.group v.color]⟩ := by
  cases item with
  | mk d nm ty =>
    cases d <;> cases nm <;> simp [entityStep, entityView, entityStoreStep]

theorem relationStep_eq (acc : Delta × Store × List StoreOp) (item : RelationItem) :
    relationStep acc item =
      match linkView item with
      | none => acc
      | some v =>
        ⟨⟨acc.1.nodes, acc.1.links ++ [v]⟩, relationStoreStep acc.2.1 item,
          acc.2.2 ++ [StoreOp.runEdgeMerge v.source v.target v.relationship]⟩ := by
  cases item with
  | mk d h t r =>
    cases d <;> cases h <;> cases t <;>
      simp [relationStep, linkView, relationStoreStep]

theorem foldl_entityStep (es : List EntityItem) :
    ∀ acc : Delta × Store × List StoreOp,
    es.foldl entityStep acc =
      ⟨⟨acc.1.nodes ++ es.filterMap entityView, acc.1.links⟩,
        es.foldl entityStoreStep acc.2.1,
        acc.2.2 ++ es.filterMap (fun it => (entityView it).map
          (fun v => StoreOp.runNodeMerge v.id v.name v.group v.color))⟩ := by
  induction es with
  | nil => intro acc; simp
  | cons e es ih =>
    intro acc
    simp only [List.foldl_cons, List.filterMap_cons]
    rw [entityStep_eq, ih]
    cases hv : entityView e <;>
      simp [hv, entityStoreStep, List.foldl_cons]

theorem foldl_relationStep (rs : List RelationItem) :
    ∀ acc : Delta × Store × List StoreOp,
    rs.foldl relationStep acc =
      ⟨⟨acc.1.nodes, acc.1.links ++ rs.filterMap linkView⟩,
        rs.foldl relationStoreStep acc.2.1,
        acc.2.2 ++ rs.filterMap (fun it => (linkView it).map
          (fun v => StoreOp.runEdgeMerge v.source v.target v.relationship))⟩ := by
  induction rs with
  | nil => intro acc; simp
  | cons r rs ih =>
    intro acc
    simp only [List.foldl_cons, List.filterMap_cons]
    rw [relationStep_eq, ih]
    cases hv : linkView r <;>
      simp [hv, relationStoreStep, List.foldl_cons]

/-- Closed form of `update_graph` in the non-trivial case. -/
theorem update_graph_eq (store : Store) (ext : Extraction)
    (h : (ext.entities.isEmpty && ext.relations.isEmpty) = false) :
    update_graph store ext =
      ⟨⟨ext.entities.filterMap entityView, ext.relations.filterMap linkView⟩,
        ext.relations.foldl relationStoreStep
          (ext.entities.foldl entityStoreStep store),
        [StoreOp.openSession] ++
          ext.entities.filterMap (fun it => (entityView it).map
            (fun v => StoreOp.runNodeMerge v.id v.name v.group v.color)) ++
          ext.relations.filterMap (fun it => (linkView it).map
            (fun v => StoreOp.runEdgeMerge v.source v.target v.relationship))⟩ := by
  unfold update_graph
  simp only [h, Bool.false_eq_true, if_false, foldl_entityStep, foldl_relationStep]
  simp

/-! ## Supporting lemmas: the two MERGE statements -/

theorem mergeNode_eq (s : Store) (i n g c : String) :
    s.mergeNode i n g c = ⟨mergeNodeL s.nodes i n g c, s.edges⟩ := by
  unfold Store.mergeNode mergeNodeL
  split <;> rfl

theorem mergeEdge_eq (s : Store) (a b r : String) :
    s.mergeEdge a b r = ⟨s.nodes, mergeEdgeL s.nodes s.edges a b r⟩ := by
  unfold Store.mergeEdge mergeEdgeL
  split
  · split <;> rfl
  · rfl

theorem mergeEdgeL_idem (ns : List GNode) (es : List GEdge) (a b r : String) :
    mergeEdgeL ns (mergeEdgeL ns es a b r) a b r = mergeEdgeL ns es a b r := by
  unfold mergeEdgeL
  by_cases h : (ns.any (fun x => x.id == a) && ns.any (fun x => x.id == b)) = true
  · simp only [h, if_true]
    by_cases he : es.any
        (fun e => e.sourceId == a && e.targetId == b && e.name == r) = true
    · simp [he]
    · simp only [he, Bool.false_eq_true, if_false]
      have hnew : ((es ++ [⟨a, b, r⟩] : List GEdge).any
          (fun e => e.sourceId == a && e.targetId == b && e.name == r)) = true := by
        simp
      simp [hnew]
  · simp [h]

theorem mergeNodeL_idem (l : List GNode) (i n g c : String) :
    mergeNodeL (mergeNodeL l i n g c) i n g c = mergeNodeL l i n g c := by
  unfold mergeNodeL
  by_cases h : l.any (fun x => x.id == i) = true
  · simp only [h, if_true]
    have hany : ((l.map (fun x =>
        if x.id == i then { x with name := n, group := g, color := c } else x)).any
          (fun x => x.id == i)) = true := by
      obtain ⟨x, hx, hxi⟩ := List.any_eq_true.mp h
      refine List.any_eq_true.mpr ⟨_, List.mem_map_of_mem _ hx, ?_⟩
      simp [hxi]
    simp only [hany, if_true]
    rw [List.map_map]
    refine List.map_congr_left ?_
    intro x _
    by_cases hxi : (x.id == i) = true
    · simp [Function.comp, hxi]
    · simp [Function.comp, hxi]
  · simp only [Bool.not_eq_true] at h
    simp only [h, Bool.false_eq_true, if_false]
    have hany : ((l ++ [⟨i, n, g, c⟩] : List GNode).any
        (fun x => x.id == i)) = true := by simp
    simp only [hany, if_true]
    rw [List.map_append]
    have hl : l.map (fun x =>
        if x.id == i then { x with name := n, group := g, color := c } else x) = l := by
      refine (List.map_congr_left ?_).trans (List.map_id l)
      intro x hx
      have : (x.id == i) = false := by
        have := List.any_eq_false.mp h
        simpa using this x hx
      simp [this]
    rw [hl]
    simp

theorem mergeNodeL_any (l : List GNode) (i n g c : String) :
    ((mergeNodeL l i n g c).any (fun x => x.id == i)) = true := by
  unfold mergeNodeL
  by_cases h : l.any (fun x => x.id == i) = true
  · simp only [h, if_true]
    obtain ⟨x, hx, hxi⟩ := List.any_eq_true.mp h
    refine List.any_eq_true.mpr ⟨_, List.mem_map_of_mem _ hx, ?_⟩
    simp [hxi]
  · simp only [h]
    simp

theorem mergeNodeL_countP (l : List GNode) (i n g c : String)
    (h : (l.map (fun x => x.id)).Nodup) :
    (mergeNodeL l i n g c).countP (fun x => x.id == i) = 1 := by
  have hcount : ∀ l' : List GNode,
      l'.countP (fun x => x.id == i) = (l'.map (fun x => x.id)).count i := by
    intro l'
    rw [List.count, List.countP_map]
    rfl
  unfold mergeNodeL
  by_cases ha : l.any (fun x => x.id == i) = true
  · simp only [ha, if_true]
    rw [List.countP_map]
    have heq : l.countP ((fun x => x.id == i) ∘ (fun x =>
        if x.id == i then { x with name := n, group := g, color := c } else x)) =
        l.countP (fun x => x.id == i) := by
      apply List.countP_congr
      intro x _
      by_cases hxi : (x.id == i) = true
      · simp [Function.comp, hxi]
      · simp [Function.comp, hxi]
    rw [heq, hcount l]
    obtain ⟨x, hx, hxi⟩ := List.any_eq_true.mp ha
    have hxeq : x.id = i := by simpa using hxi
    have hmem : i ∈ l.map (fun x => x.id) := by
      refine List.mem_map.mpr ⟨x, hx, hxeq⟩
    have hle := List.nodup_iff_count_le_one.mp h i
    have hge := List.one_le_count_iff.mpr hmem
    omega
  · have ha' : l.any (fun x => x.id == i) = false := by
      simpa using ha
    simp only [ha', Bool.false_eq_true, if_false]
    rw [List.countP_append]
    have h0 : l.countP (fun x => x.id == i) = 0 := by
      apply List.countP_eq_zero.mpr
      intro x hx
      have := List.any_eq_false.mp ha'
      simpa using this x hx
    simp [h0, List.countP_cons]

theorem mergeNodeL_ids_nodup (l : List GNode) (i n g c : String)
    (h : (l.map (fun x => x.id)).Nodup) :
    ((mergeNodeL l i n g c).map (fun x => x.id)).Nodup := by
  unfold mergeNodeL
  by_cases ha : l.any (fun x => x.id == i) = true
  · simp only [ha, if_true]
    rw [List.map_map]
    have heq : l.map ((fun x => x.id) ∘ (fun x =>
        if x.id == i then { x with name := n, group := g, color := c } else x)) =
        l.map (fun x => x.id) := by
      apply List.map_congr_left
      intro x _
      by_cases hxi : (x.id == i) = true
      · simp [Function.comp, hxi]
      · simp [Function.comp, hxi]
    rw [heq]
    exact h
  · simp only [Bool.not_eq_true] at ha
    simp only [ha, Bool.false_eq_true, if_false]
    rw [List.map_append]
    have hnotin : i ∉ l.map (fun x => x.id) := by
      intro hmem
      obtain ⟨x, hx, hxeq⟩ := List.mem_map.mp hmem
      have := List.any_eq_false.mp ha
      have h2 := this x hx
      simp [hxeq] at h2
    simp [List.nodup_append, h, hnotin]

theorem mergeEdgeL_keys_nodup (ns : List GNode) (es : List GEdge) (a b r : String)
    (h : (es.map edgeKey).Nodup) :
    ((mergeEdgeL ns es a b r).map edgeKey).Nodup := by
  unfold mergeEdgeL
  by_cases hc : (ns.any (fun x => x.id == a) && ns.any (fun x => x.id == b)) = true
  · simp only [hc, if_true]
    by_cases he : es.any
        (fun e => e.sourceId == a && e.targetId == b && e.name == r) = true
    · simp [he, h]
    · simp only [he, Bool.false_eq_true, if_false]
      rw [List.map_append]
      have hnotin : edgeKey ⟨a, b, r⟩ ∉ es.map edgeKey := by
        intro hmem
        obtain ⟨e, hemem, hkey⟩ := List.mem_map.mp hmem
        simp only [Bool.not_eq_true] at he
        have := List.any_eq_false.mp he e hemem
        cases e
        simp [edgeKey] at hkey
        simp [hkey.1, hkey.2.1, hkey.2.2] at this
      simp [List.nodup_append, h, hnotin]
  · simp [hc, h]

theorem mergeNode_nodesL (s : Store) (i n g c : String) :
    (s.mergeNode i n g c).nodes = mergeNodeL s.nodes i n g c := by
  rw [mergeNode_eq]

theorem mergeNode_edges (s : Store) (i n g c : String) :
    (s.mergeNode i n g c).edges = s.edges := by
  rw [mergeNode_eq]

theorem mergeEdge_nodes (s : Store) (a b r : String) :
    (s.mergeEdge a b r).nodes = s.nodes := by
  rw [mergeEdge_eq]

theorem mergeEdge_edgesL (s : Store) (a b r : String) :
    (s.mergeEdge a b r).edges = mergeEdgeL s.nodes s.edges a b r := by
  rw [mergeEdge_eq]

theorem mergeEdge_idem (s : Store) (a b r : String) :
    (s.mergeEdge a b r).mergeEdge a b r = s.mergeEdge a b r := by
  rw [mergeEdge_eq (s.mergeEdge a b r), mergeEdge_nodes, mergeEdge_edgesL,
    mergeEdgeL_idem]
  exact (mergeEdge_eq s a b r).symm

theorem mergeNode_stable (s : Store) (i n g c a b r : String) :
    ((s.mergeNode i n g c).mergeEdge a b r).mergeNode i n g c =
      (s.mergeNode i n g c).mergeEdge a b r := by
  have hx : ((s.mergeNode i n g c).mergeEdge a b r).nodes =
      mergeNodeL s.nodes i n g c := by
    rw [mergeEdge_nodes, mergeNode_nodesL]
  rw [mergeNode_eq, hx, mergeNodeL_idem, ← hx]

theorem mergeEdgeL_mem (ns : List GNode) (es : List GEdge) (a b r : String)
    (ha : ns.any (fun x => x.id == a) = true)
    (hb : ns.any (fun x => x.id == b) = true) :
    GEdge.mk a b r ∈ mergeEdgeL ns es a b r := by
  unfold mergeEdgeL
  simp only [ha, hb, Bool.and_self, if_true]
  by_cases he : es.any
      (fun e => e.sourceId == a && e.targetId == b && e.name == r) = true
  · simp only [he, if_true]
    obtain ⟨e, hmem, hp⟩ := List.any_eq_true.mp he
    have : e = ⟨a, b, r⟩ := by
      cases e
      simp at hp
      simp [hp.1.1, hp.1.2, hp.2]
    rw [← this]
    exact hmem
  · simp [he]

/-! ## Claim theorems -/

/-- Claim C5: for every keyword list, `GraphManager.search_subgraph` returns at
most 30 fact lines, and the returned lines are pairwise distinct (identical
fact lines are deduplicated), even when the keywords match more than 30
records in the store. -/
theorem c5_bounded_deduplicated_retrieval (store : Store) (keywords : List String) :
    (search_subgraph_lines store keywords).length ≤ 30 ∧
    (search_subgraph_lines store keywords).Nodup ∧
    search_subgraph store keywords =
      String.intercalate "\n" (search_subgraph_lines store keywords) := by
  refine ⟨?_, ?_, ?_⟩
  · unfold search_subgraph_lines
    by_cases h : keywords.isEmpty
    · simp [h]
    · simp only [h, Bool.false_eq_true, if_false]
      calc (dedup ((queryRows store keywords).map renderFact)).length
          ≤ ((queryRows store keywords).map renderFact).length := dedup_length_le _
        _ = (queryRows store keywords).length := by simp
        _ ≤ 30 := List.length_take_le _ _
  · unfold search_subgraph_lines
    by_cases h : keywords.isEmpty
    · simp [h]
    · simp only [h, Bool.false_eq_true, if_false]
      exact dedup_nodup _
  · unfold search_subgraph search_subgraph_lines
    by_cases h : keywords.isEmpty
    · simp [h, String.intercalate]
    · simp [h]

/-- Claim C6: `GraphManager.update_graph` on an extraction with empty entity
and relation lists returns the empty delta, leaves the store untouched, and
performs no store access at all (no session opened, no statement run). -/
theorem c6_empty_extraction_no_store_access (store : Store) :
    update_graph store ⟨[], []⟩ =
      ⟨⟨[], []⟩, store, ([] : List StoreOp)⟩ := rfl

/-- Claim C4: if the keyword-extraction model call raises, the keyword list is
empty, `search_subgraph` on the empty keyword list returns `""`, and the turn
proceeds to answer generation with the no-knowledge framing: the answer
fragments are still streamed, followed by the learn stage and `closed`. -/
theorem c4_fail_open_keywords (err : String) (store : Store)
    (frags : List String) (lc : Except String RawExtraction) (ts : Nat) :
    extract_search_keywords (Except.error err) = [] ∧
    search_subgraph store [] = "" ∧
    (think store ⟨Except.error err, frags, lc, ts⟩).keywords = [] ∧
    (think store ⟨Except.error err, frags, lc, ts⟩).graphContext = "" ∧
    (think store ⟨Except.error err, frags, lc, ts⟩).fastSystemPrompt =
      noKnowledgeFraming ∧
    (think store ⟨Except.error err, frags, lc, ts⟩).events =
      [startEvent, Event.control "thinking" (some "正在检索具体关系...") none none] ++
        (frags.filter (fun c => !c.isEmpty)).map Event.chunk ++
        (slow_brain_learn store lc ts).1 ++ [closedEvent] := by
  refine ⟨rfl, rfl, ?_, ?_, ?_, ?_⟩ <;>
    simp [think, extract_search_keywords, search_subgraph,
      fast_brain_generate, fast_brain_system_prompt,
      show "".isEmpty = true from rfl]

set_option maxRecDepth 10000 in
/-- Claim C7, counterexample to the original wording: an entity item whose
`name` field is present but empty is NOT skipped — the guard only checks
`'name' not in item`. On the empty store it is upserted (under the MD5 id of
the empty string) and appended to the delta's node list. -/
theorem c7_counterexample :
    (update_graph emptyStore ⟨[⟨true, some "", none⟩], []⟩).1.nodes =
      [⟨"node_d41d8cd9", "", "Concept", "#ff9900", 15⟩] ∧
    (update_graph emptyStore ⟨[⟨true, some "", none⟩], []⟩).2.1.nodes =
      [⟨"node_d41d8cd9", "", "Concept", "#ff9900"⟩] ∧
    (update_graph emptyStore ⟨[⟨true, some "", none⟩], []⟩).2.2 =
      [StoreOp.openSession,
       StoreOp.runNodeMerge "node_d41d8cd9" "" "Concept" "#ff9900"] := by
  refine ⟨?_, ?_, ?_⟩ <;> decide

/-- Claim C7 as amended: `update_graph` upserts and appends to the delta's
node list exactly the entity items that are dict objects containing the `name`
key (even when the name is the empty string); an item that is not a dict or
lacks the `name` key is skipped silently, contributes no store statement and
no delta entry, and does not abort the rest of the batch. -/
theorem c7_entity_filtering (store : Store)
    (entities : List EntityItem) (relations : List RelationItem)
    (h : (entities.isEmpty && relations.isEmpty) = false) :
    (update_graph store ⟨entities, relations⟩).1.nodes =
      entities.filterMap entityView ∧
    (update_graph store ⟨entities, relations⟩).2.2 =
      [StoreOp.openSession] ++
        entities.filterMap (fun it => (entityView it).map
          (fun v => StoreOp.runNodeMerge v.id v.name v.group v.color)) ++
        relations.filterMap (fun it => (linkView it).map
          (fun v => StoreOp.runEdgeMerge v.source v.target v.relationship)) ∧
    (∀ item : EntityItem, entityView item = none ↔
      (item.isDict = false ∨ item.name = none)) := by
  rw [update_graph_eq store ⟨entities, relations⟩ h]
  refine ⟨rfl, rfl, ?_⟩
  intro item
  cases item with
  | mk d nm ty => cases d <;> cases nm <;> simp [entityView]

/-- Claim C8: `_fast_brain_generate` with an empty retrieved context invokes
the model with the no-knowledge system framing — which is never equal to the
context-embedding framing — and with a non-empty context it invokes the model
with the framing that embeds the retrieved context verbatim. -/
theorem c8_fallback_framing (frags : List String) :
    (fast_brain_generate "" frags).1 = noKnowledgeFraming ∧
    (∀ c : String, noKnowledgeFraming ≠ contextFraming c) ∧
    (∀ context : String, context ≠ "" →
      (fast_brain_generate context frags).1 = contextFraming context) := by
  refine ⟨rfl, ?_, ?_⟩
  · intro c h
    have h2 := congrArg String.data h
    simp only [noKnowledgeFraming, contextFraming, String.data_append] at h2
    have h3 := List.append_cancel_left h2
    simp at h3
  · intro context hc
    unfold fast_brain_generate fast_brain_system_prompt
    have : context.isEmpty = false := by
      cases hh : context.isEmpty
      · rfl
      · exact absurd ((String.isEmpty_iff context).mp hh) hc
    simp [this]

/-- Claim C9: a relation item with `head` and `tail` but no `relation` field is
not dropped: the default predicate `'关联'` is substituted, the link view is
appended to the delta, the edge MERGE is executed with that name, and (when
both endpoint nodes exist) the edge is stored under the default name. -/
theorem c9_default_predicate (store : Store) (h t : String)
    (hh : store.nodes.any (fun n => n.id == generate_id h) = true)
    (ht : store.nodes.any (fun n => n.id == generate_id t) = true) :
    (update_graph store ⟨[], [⟨true, some h, some t, none⟩]⟩).1.links =
      [⟨generate_id h, generate_id t, "关联", 2⟩] ∧
    (update_graph store ⟨[], [⟨true, some h, some t, none⟩]⟩).2.2 =
      [StoreOp.openSession,
       StoreOp.runEdgeMerge (generate_id h) (generate_id t) "关联"] ∧
    GEdge.mk (generate_id h) (generate_id t) "关联" ∈
      (update_graph store ⟨[], [⟨true, some h, some t, none⟩]⟩).2.1.edges := by
  have hne : ((⟨[], [⟨true, some h, some t, none⟩]⟩ : Extraction).entities.isEmpty &&
      (⟨[], [⟨true, some h, some t, none⟩]⟩ : Extraction).relations.isEmpty) = false := rfl
  rw [update_graph_eq _ _ hne]
  refine ⟨by simp [linkView], by simp [linkView], ?_⟩
  simp only [List.foldl_nil, List.foldl_cons]
  have hstep : relationStoreStep store ⟨true, some h, some t, none⟩ =
      store.mergeEdge (generate_id h) (generate_id t) "关联" := by
    simp [relationStoreStep, linkView]
  rw [hstep, mergeEdge_eq]
  exact mergeEdgeL_mem _ _ _ _ _ hh ht

/-- Claim C10: a relation item with both `head` and `tail` contributes exactly
one link view to the delta even when an endpoint entity is absent from the
store; in that case the MATCH+MERGE writes nothing, so the store is unchanged
and the reported link corresponds to no stored edge. -/
theorem c10_delta_link_without_edge (store : Store) (h t rel : String)
    (hmiss : store.nodes.any (fun n => n.id == generate_id h) = false ∨
      store.nodes.any (fun n => n.id == generate_id t) = false) :
    (update_graph store ⟨[], [⟨true, some h, some t, some rel⟩]⟩).1.links =
      [⟨generate_id h, generate_id t, rel, 2⟩] ∧
    (update_graph store ⟨[], [⟨true, some h, some t, some rel⟩]⟩).2.1 = store := by
  have hne : ((⟨[], [⟨true, some h, some t, some rel⟩]⟩ : Extraction).entities.isEmpty &&
      (⟨[], [⟨true, some h, some t, some rel⟩]⟩ : Extraction).relations.isEmpty) = false := rfl
  rw [update_graph_eq _ _ hne]
  refine ⟨by simp [linkView], ?_⟩
  simp only [List.foldl_nil, List.foldl_cons]
  have hstep : relationStoreStep store ⟨true, some h, some t, some rel⟩ =
      store.mergeEdge (generate_id h) (generate_id t) rel := by
    simp [relationStoreStep, linkView]
  rw [hstep, mergeEdge_eq]
  have hL : mergeEdgeL store.nodes store.edges (generate_id h) (generate_id t) rel =
      store.edges := by
    unfold mergeEdgeL
    rcases hmiss with hm | hm <;> simp [hm]
  rw [hL]

/-- Claim C2: merging `c2ext` twice is idempotent — the second application
changes neither the store nor the returned delta; after the first application
the store holds exactly one node whose id is `id("A")`, node ids stay
pairwise distinct, and edges stay unique per `(sourceId, targetId, name)`
key. -/
theorem c2_merge_idempotent (store : Store)
    (hn : (store.nodes.map (fun x => x.id)).Nodup)
    (he : (store.edges.map edgeKey).Nodup) :
    (update_graph (update_graph store c2ext).2.1 c2ext).2.1 =
      (update_graph store c2ext).2.1 ∧
    (update_graph (update_graph store c2ext).2.1 c2ext).1 =
      (update_graph store c2ext).1 ∧
    (update_graph store c2ext).2.1.nodes.countP
      (fun x => x.id == generate_id "A") = 1 ∧
    ((update_graph store c2ext).2.1.nodes.map (fun x => x.id)).Nodup ∧
    ((update_graph store c2ext).2.1.edges.map edgeKey).Nodup := by
  have hne : (c2ext.entities.isEmpty && c2ext.relations.isEmpty) = false := rfl
  have hstore : ∀ s : Store, (update_graph s c2ext).2.1 =
      (s.mergeNode (generate_id "A") "A" "Concept"
        (assign_color "Concept")).mergeEdge
        (generate_id "A") (generate_id "B") "knows" := by
    intro s
    rw [update_graph_eq _ _ hne]
    simp [c2ext, entityStoreStep, relationStoreStep, entityView, linkView]
  refine ⟨?_, ?_, ?_, ?_, ?_⟩
  · rw [hstore ((update_graph store c2ext).2.1), hstore store, mergeNode_stable,
      mergeEdge_idem]
  · rw [update_graph_eq _ _ hne, update_graph_eq _ _ hne]
  · rw [hstore store, mergeEdge_nodes, mergeNode_nodesL]
    exact mergeNodeL_countP store.nodes _ _ _ _ hn
  · rw [hstore store, mergeEdge_nodes, mergeNode_nodesL]
    exact mergeNodeL_ids_nodup store.nodes _ _ _ _ hn
  · rw [hstore store, mergeEdge_edgesL, mergeNode_edges]
    exact mergeEdgeL_keys_nodup _ _ _ _ _ he

/-- Claim C3: when the knowledge-extraction call (or its JSON parsing) fails,
`_slow_brain_learn` emits the `thinking` event then a control `error` event
carrying the failure detail, mutates nothing in the graph store, and
`DualBrain.think` still ends the turn with the `closed` event. -/
theorem c3_learn_failure_isolated (e : String) (store : Store)
    (kc : Except String String) (frags : List String) (ts : Nat) :
    (slow_brain_learn store (Except.error e) ts).1 =
      [Event.control "thinking" (some "正在分析具体关系...") none none,
       Event.control "error" (some e) none none] ∧
    (slow_brain_learn store (Except.error e) ts).2 = store ∧
    Event.control "error" (some e) none none ∈
      (think store ⟨kc, frags, Except.error e, ts⟩).events ∧
    (think store ⟨kc, frags, Except.error e, ts⟩).store = store ∧
    (think store ⟨kc, frags, Except.error e, ts⟩).events.getLast? =
      some closedEvent := by
  refine ⟨rfl, rfl, ?_, rfl, ?_⟩
  · simp [think, slow_brain_learn]
  · show (([startEvent, _] ++ _ ++ _ ++ _) ++ [closedEvent]).getLast? = _
    rw [List.getLast?_concat]

/-! ## Supporting lemmas: event-stream ordering -/

theorem get_append_mem_left {α : Type} (A C : List α) (k : Fin (A ++ C).length)
    (h : (k : Nat) < A.length) : (A ++ C).get k ∈ A := by
  rw [List.get_eq_getElem, List.getElem_append_left h]
  exact List.get_mem A _ h

theorem get_append_mem_right {α : Type} (A C : List α) (k : Fin (A ++ C).length)
    (h : A.length ≤ (k : Nat)) : (A ++ C).get k ∈ C := by
  rw [List.get_eq_getElem, List.getElem_append_right h]
  have hlt : (k : Nat) - A.length < C.length := by
    have := k.isLt
    simp only [List.length_append] at this
    omega
  exact List.get_mem C _ hlt

/-- Any stream of the shape `A ++ (B ++ [closed])` where `A` holds no
`graph_update` and no `closed` event and `B` holds no `chunk` and no `closed`
event satisfies the ordering contract. -/
theorem ordered_stream (A B : List Event)
    (hA : ∀ e ∈ A, e.isGraphUpdate = false ∧ e.isClosed = false)
    (hB : ∀ e ∈ B, e.isChunk = false ∧ e.isClosed = false) :
    (∀ i j : Fin (A ++ (B ++ [closedEvent])).length,
      ((A ++ (B ++ [closedEvent])).get i).isChunk = true →
      ((A ++ (B ++ [closedEvent])).get j).isGraphUpdate = true →
      (i : Nat) < (j : Nat)) ∧
    (∀ j : Fin (A ++ (B ++ [closedEvent])).length,
      ((A ++ (B ++ [closedEvent])).get j).isGraphUpdate = true →
      (j : Nat) + 1 < (A ++ (B ++ [closedEvent])).length) ∧
    (A ++ (B ++ [closedEvent])).countP (fun e => e.isClosed) = 1 ∧
    (A ++ (B ++ [closedEvent])).getLast? = some closedEvent := by
  refine ⟨?_, ?_, ?_, ?_⟩
  · intro i j hci hgj
    have hi : (i : Nat) < A.length := by
      by_contra hge
      push_neg at hge
      have hmem := get_append_mem_right A _ i hge
      rcases List.mem_append.mp hmem with hm | hm
      · rw [(hB _ hm).1] at hci
        exact absurd hci (by decide)
      · have heq : (A ++ (B ++ [closedEvent])).get i = closedEvent := by
          simpa using hm
        rw [heq] at hci
        exact absurd hci (by decide)
    have hj : A.length ≤ (j : Nat) := by
      by_contra hlt
      push_neg at hlt
      have hmem := get_append_mem_left A _ j hlt
      rw [(hA _ hmem).1] at hgj
      exact absurd hgj (by decide)
    omega
  · intro j hgj
    by_contra hge
    push_neg at hge
    have hjlt := j.isLt
    simp only [List.length_append, List.length_cons, List.length_nil] at hjlt hge
    have hjv : (j : Nat) = A.length + B.length := by omega
    have h1 : A.length ≤ (j : Nat) := by omega
    have heq : (A ++ (B ++ [closedEvent])).get j = closedEvent := by
      rw [List.get_eq_getElem, List.getElem_append_right h1,
        List.getElem_append_right (by omega : B.length ≤ (j : Nat) - A.length)]
      simp
    rw [heq] at hgj
    exact absurd hgj (by decide)
  · rw [List.countP_append, List.countP_append]
    have cA : A.countP (fun e => e.isClosed) = 0 :=
      List.countP_eq_zero.mpr (fun e he => by simp [(hA e he).2])
    have cB : B.countP (fun e => e.isClosed) = 0 :=
      List.countP_eq_zero.mpr (fun e he => by simp [(hB e he).2])
    simp only [cA, cB, List.countP_cons, List.countP_nil]
    decide
  · rw [← List.append_assoc, List.getLast?_concat]

theorem slow_brain_learn_events (store : Store)
    (lr : Except String RawExtraction) (ts : Nat) :
    ∀ e ∈ (slow_brain_learn store lr ts).1,
      e.isChunk = false ∧ e.isClosed = false := by
  intro e he
  cases lr with
  | error s =>
    simp only [slow_brain_learn, List.mem_cons, List.mem_singleton,
      List.not_mem_nil] at he
    rcases he with he | he | he
    · subst he; exact ⟨rfl, rfl⟩
    · subst he; exact ⟨rfl, rfl⟩
    · exact absurd he (by simp)
  | ok raw =>
    unfold slow_brain_learn at he
    by_cases hc : (!((update_graph store
        ⟨raw.entities.getD [], raw.relations.getD []⟩).1).nodes.isEmpty ||
        !((update_graph store
        ⟨raw.entities.getD [], raw.relations.getD []⟩).1).links.isEmpty) = true
    · simp only [hc, if_true, List.mem_cons, List.not_mem_nil] at he
      rcases he with he | he | he | he
      · subst he; exact ⟨rfl, rfl⟩
      · subst he; exact ⟨rfl, rfl⟩
      · subst he; exact ⟨rfl, rfl⟩
      · exact absurd he (by simp)
    · simp only [hc, Bool.false_eq_true, if_false, List.mem_cons,
        List.not_mem_nil] at he
      rcases he with he | he | he
      · subst he; exact ⟨rfl, rfl⟩
      · subst he; exact ⟨rfl, rfl⟩
      · exact absurd he (by simp)

/-- Claim C1: every `think` turn emits a stream that begins with the control
`start` event, in which every `chunk` event precedes any `graph_update`
event, any `graph_update` event precedes the final event, and exactly one
control `closed` event occurs, as the last event of the stream. -/
theorem c1_event_stream_ordering (store : Store) (o : ThinkOracles) :
    (think store o).events.head? = some startEvent ∧
    (∀ i j : Fin (think store o).events.length,
      ((think store o).events.get i).isChunk = true →
      ((think store o).events.get j).isGraphUpdate = true →
      (i : Nat) < (j : Nat)) ∧
    (∀ j : Fin (think store o).events.length,
      ((think store o).events.get j).isGraphUpdate = true →
      (j : Nat) + 1 < (think store o).events.length) ∧
    (think store o).events.countP (fun e => e.isClosed) = 1 ∧
    (think store o).events.getLast? = some closedEvent := by
  have hshape : (think store o).events =
      ([startEvent, Event.control "thinking" (some "正在检索具体关系...") none none] ++
        (if !(search_subgraph store (extract_search_keywords o.keywordCall)).isEmpty
          then [Event.control "thinking" (some "已加载关联知识") none none] else []) ++
        (o.answerFragments.filter (fun c => !c.isEmpty)).map Event.chunk) ++
      ((slow_brain_learn store o.learnCall o.timestamp).1 ++ [closedEvent]) := by
    have h1 : (think store o).events =
        [startEvent, Event.control "thinking" (some "正在检索具体关系...") none none] ++
          (if !(search_subgraph store (extract_search_keywords o.keywordCall)).isEmpty
            then [Event.control "thinking" (some "已加载关联知识") none none] else []) ++
          (o.answerFragments.filter (fun c => !c.isEmpty)).map Event.chunk ++
          (slow_brain_learn store o.learnCall o.timestamp).1 ++ [closedEvent] := rfl
    rw [h1, List.append_assoc
      ([startEvent, Event.control "thinking" (some "正在检索具体关系...") none none] ++
        (if !(search_subgraph store (extract_search_keywords o.keywordCall)).isEmpty
          then [Event.control "thinking" (some "已加载关联知识") none none] else []) ++
        (o.answerFragments.filter (fun c => !c.isEmpty)).map Event.chunk)]
  have hA : ∀ e ∈ ([startEvent,
      Event.control "thinking" (some "正在检索具体关系...") none none] ++
        (if !(search_subgraph store (extract_search_keywords o.keywordCall)).isEmpty
          then [Event.control "thinking" (some "已加载关联知识") none none] else []) ++
        (o.answerFragments.filter (fun c => !c.isEmpty)).map Event.chunk),
      e.isGraphUpdate = false ∧ e.isClosed = false := by
    intro e he
    rcases List.mem_append.mp he with h1 | h2
    · rcases List.mem_append.mp h1 with h0 | hld
      · simp only [List.mem_cons, List.mem_singleton, List.not_mem_nil] at h0
        rcases h0 with h0 | h0 | h0
        · subst h0; exact ⟨rfl, rfl⟩
        · subst h0; exact ⟨rfl, rfl⟩
        · exact absurd h0 (by simp)
      · by_cases hcond : (!(search_subgraph store
            (extract_search_keywords o.keywordCall)).isEmpty) = true
        · simp only [hcond, if_true, List.mem_singleton] at hld
          subst hld; exact ⟨rfl, rfl⟩
        · simp only [hcond, Bool.false_eq_true, if_false,
            List.not_mem_nil] at hld
    · obtain ⟨c, _, hc⟩ := List.mem_map.mp h2
      subst hc; exact ⟨rfl, rfl⟩
  rw [hshape]
  refine ⟨rfl, (ordered_stream _ _ hA
    (slow_brain_learn_events store o.learnCall o.timestamp)).1,
    (ordered_stream _ _ hA
      (slow_brain_learn_events store o.learnCall o.timestamp)).2.1,
    (ordered_stream _ _ hA
      (slow_brain_learn_events store o.learnCall o.timestamp)).2.2.1,
    (ordered_stream _ _ hA
      (slow_brain_learn_events store o.learnCall o.timestamp)).2.2.2⟩

/-! ## Witnesses -/

set_option maxRecDepth 100000 in
theorem c1_witness :
    ((think emptyStore c1oracles).events.get ⟨2, by decide⟩).isChunk = true ∧
    ((think emptyStore c1oracles).events.get ⟨4, by decide⟩).isGraphUpdate = true ∧
    (2 : Nat) < (4 : Nat) :=
  ⟨by decide, by decide,
    (c1_event_stream_ordering emptyStore c1oracles).2.1
      ⟨2, by decide⟩ ⟨4, by decide⟩ (by decide) (by decide)⟩

set_option maxRecDepth 100000 in
theorem c2_witness :
    (emptyStore.nodes.map (fun x => x.id)).Nodup ∧
    (emptyStore.edges.map edgeKey).Nodup ∧
    ((update_graph (update_graph emptyStore c2ext).2.1 c2ext).2.1 =
        (update_graph emptyStore c2ext).2.1 ∧
      (update_graph (update_graph emptyStore c2ext).2.1 c2ext).1 =
        (update_graph emptyStore c2ext).1 ∧
      (update_graph emptyStore c2ext).2.1.nodes.countP
        (fun x => x.id == generate_id "A") = 1 ∧
      ((update_graph emptyStore c2ext).2.1.nodes.map (fun x => x.id)).Nodup ∧
      ((update_graph emptyStore c2ext).2.1.edges.map edgeKey).Nodup) :=
  ⟨by decide, by decide, c2_merge_idempotent emptyStore (by decide) (by decide)⟩

theorem c7_witness :
    (c7ents.isEmpty && ([] : List RelationItem).isEmpty) = false ∧
    ((update_graph emptyStore ⟨c7ents, []⟩).1.nodes = c7ents.filterMap entityView ∧
      (update_graph emptyStore ⟨c7ents, []⟩).2.2 =
        [StoreOp.openSession] ++
          c7ents.filterMap (fun it => (entityView it).map
            (fun v => StoreOp.runNodeMerge v.id v.name v.group v.color)) ++
          ([] : List RelationItem).filterMap (fun it => (linkView it).map
            (fun v => StoreOp.runEdgeMerge v.source v.target v.relationship)) ∧
      (∀ item : EntityItem, entityView item = none ↔
        (item.isDict = false ∨ item.name = none))) :=
  ⟨by decide, c7_entity_filtering emptyStore c7ents [] (by decide)⟩

theorem c8_witness :
    ("graph facts" : String) ≠ "" ∧
    (fast_brain_generate "graph facts" ["x"]).1 = contextFraming "graph facts" :=
  ⟨by decide, (c8_fallback_framing ["x"]).2.2 "graph facts" (by decide)⟩

set_option maxRecDepth 100000 in
theorem c9_witness :
    (c9store.nodes.any (fun n => n.id == generate_id "A")) = true ∧
    (c9store.nodes.any (fun n => n.id == generate_id "B")) = true ∧
    ((update_graph c9store ⟨[], [⟨true, some "A", some "B", none⟩]⟩).1.links =
        [⟨generate_id "A", generate_id "B", "关联", 2⟩] ∧
      (update_graph c9store ⟨[], [⟨true, some "A", some "B", none⟩]⟩).2.2 =
        [StoreOp.openSession,
         StoreOp.runEdgeMerge (generate_id "A") (generate_id "B") "关联"] ∧
      GEdge.mk (generate_id "A") (generate_id "B") "关联" ∈
        (update_graph c9store ⟨[], [⟨true, some "A", some "B", none⟩]⟩).2.1.edges) :=
  ⟨by decide, by decide,
    c9_default_predicate c9store "A" "B" (by decide) (by decide)⟩

theorem c10_witness :
    (emptyStore.nodes.any (fun n => n.id == generate_id "A") = false ∨
      emptyStore.nodes.any (fun n => n.id == generate_id "B") = false) ∧
    ((update_graph emptyStore ⟨[], [⟨true, some "A", some "B", some "knows"⟩]⟩).1.links =
        [⟨generate_id "A", generate_id "B", "knows", 2⟩] ∧
      (update_graph emptyStore
        ⟨[], [⟨true, some "A", some "B", some "knows"⟩]⟩).2.1 = emptyStore) :=
  ⟨Or.inl rfl,
    c10_delta_link_without_edge emptyStore "A" "B" "knows" (Or.inl rfl)⟩
